import Mathlib

/-!
Shallow embedding of the orchestration core of the watercolour-painting app
(src/geminiService.ts together with the state threading of src/App.tsx).

Strings of the JavaScript program are modelled as lists of characters
(`Str`).  JavaScript's single-separator `String.prototype.split` is modelled
by `splitOnChar`, `String.prototype.includes` by `includes`, and
`String.prototype.trim` by `trim`.  The external Gemini API call inside the
retry loop is abstracted as an attempt-indexed invoker returning either an
exception message or a `GenerateContentResponse` envelope; the rest of the
loop body (image extraction, the ModelOutputEmpty throw, failure
classification, backoff, and the terminal throws) is translated line by line
from `callGeminiImageApi`.
-/

/-- Strings of the JavaScript program, modelled as lists of characters. -/
abbrev Str := List Char

/-- Tests whether `pat` occurs at the very start of `s`. -/
def startsWith : Str → Str → Bool
  | _, [] => true
  | [], _ :: _ => false
  | c :: cs, p :: ps => c == p && startsWith cs ps

/-- JavaScript `s.includes(pat)`: `pat` occurs contiguously somewhere in `s`. -/
def includes : Str → Str → Bool
  | [], pat => startsWith [] pat
  | c :: cs, pat => startsWith (c :: cs) pat || includes cs pat

/-- Number of positions of `s` (its end included) at which `pat` occurs. -/
def countOcc : Str → Str → Nat
  | [], pat => if startsWith [] pat then 1 else 0
  | c :: cs, pat => (if startsWith (c :: cs) pat then 1 else 0) + countOcc cs pat

/-- JavaScript `s.split(sep)` for a single-character separator: splitting the
empty string gives `[[]]`, and every separator occurrence opens a new
segment. -/
def splitOnChar (sep : Char) : Str → List Str
  | [] => [[]]
  | c :: cs =>
    if c = sep then [] :: splitOnChar sep cs
    else
      match splitOnChar sep cs with
      | [] => [[c]]
      | r :: rs => (c :: r) :: rs

/-- JavaScript `s.trim()`, over the whitespace characters of
`Char.isWhitespace`. -/
def trim (s : Str) : Str :=
  ((s.dropWhile Char.isWhitespace).reverse.dropWhile Char.isWhitespace).reverse

/-- Retry bound from src/geminiService.ts line 63. -/
def maxRetries : Nat := 3

/-- Initial backoff delay in milliseconds, from src/geminiService.ts line 64. -/
def initialDelay : Nat := 1500

/-- Rate-limit indicator searched for in error messages (line 91). -/
def s429 : Str := "429".toList

/-- Server-error indicator searched for in error messages (line 91). -/
def s500 : Str := "500".toList

/-- Internal-error marker searched for in error messages (line 91). -/
def sINTERNAL : Str := "INTERNAL".toList

/-- Message of the ModelOutputEmpty error thrown at line 85. -/
def modelOutputEmptyMsg : Str := "The AI model responded without an image.".toList

/-- Failure classification of line 91: a failure is retryable iff its message
contains "429", "500" or "INTERNAL". -/
def isRetryable (errorMessage : Str) : Bool :=
  includes errorMessage s429 || includes errorMessage s500 ||
    includes errorMessage sINTERNAL

/-- Inline image data carried by a response part: `{mimeType, data}`. -/
structure InlineData where
  mimeType : Str
  data : Str
deriving DecidableEq

/-- One content part of a response candidate; either field may be absent. -/
structure ResponsePart where
  text : Option Str := none
  inlineData : Option InlineData := none
deriving DecidableEq

/-- Content of a response candidate; its parts list may be absent. -/
structure Content where
  parts : Option (List ResponsePart)
deriving DecidableEq

/-- One candidate of a response; its content may be absent. -/
structure Candidate where
  content : Option Content
deriving DecidableEq

/-- Response envelope of the generative API; the candidate list may be
absent. -/
structure GenerateContentResponse where
  candidates : Option (List Candidate)
deriving DecidableEq

/-- Optional-chaining extraction of line 78:
`response.candidates?.[0]?.content?.parts?.find(part => part.inlineData)`. -/
def findImagePart (response : GenerateContentResponse) : Option ResponsePart :=
  (((response.candidates.bind List.head?).bind Candidate.content).bind
      Content.parts).bind
    (List.find? fun part => part.inlineData.isSome)

/-- Literal head of the data URL template of line 82. -/
def dataUrlHead : Str := "data:".toList

/-- Literal middle of the data URL template of line 82. -/
def dataUrlMid : Str := ";base64,".toList

/-- Data URL template of line 82: `data:<mimeType>;base64,<data>`. -/
def dataUrlOf (mimeType data : Str) : Str :=
  dataUrlHead ++ mimeType ++ dataUrlMid ++ data

/-- One attempt of the loop body (lines 68-85): the API either throws with a
message or yields a response; a response without an image part raises the
ModelOutputEmpty error of line 85, and an image part is repackaged as a data
URL (lines 80-82). -/
def attemptResult (apiResult : Except Str GenerateContentResponse) :
    Except Str Str :=
  match apiResult with
  | .error e => .error e
  | .ok response =>
    match findImagePart response with
    | some part =>
      match part.inlineData with
      | some d => .ok (dataUrlOf d.mimeType d.data)
      | none => .error modelOutputEmptyMsg
    | none => .error modelOutputEmptyMsg

/-- Outcome of a whole `callGeminiImageApi` run, with the two throw sites
distinguished: `terminalError` is the rethrow of line 99 (message of the last
underlying failure) and `retriesExceeded` is the defensive throw of line 103
(`"Maximum retries exceeded."`). -/
inductive CallResult where
  | image (dataUrl : Str)
  | terminalError (msg : Str)
  | retriesExceeded
deriving DecidableEq

/-- Observable trace of one `callGeminiImageApi` run: its outcome, how many
invocation attempts were made, and the backoff delays awaited (in order). -/
structure RunTrace where
  result : CallResult
  attempts : Nat
  delays : List Nat
deriving DecidableEq

/-- The retry loop of lines 66-101, as a recursion on the remaining loop
iterations: `runLoop invoke attempt fuel` runs the loop body at the given
attempt number with `fuel` iterations left before the loop condition
`attempt <= maxRetries` fails.  Fuel 0 is the loop exiting normally, which
reaches the defensive throw of line 103. -/
def runLoop (invoke : Nat → Except Str GenerateContentResponse)
    (attempt : Nat) : Nat → RunTrace
  | 0 => ⟨.retriesExceeded, attempt - 1, []⟩
  | fuel + 1 =>
    match attemptResult (invoke attempt) with
    | .ok img => ⟨.image img, attempt, []⟩
    | .error msg =>
      if isRetryable msg = true ∧ attempt < maxRetries then
        let rest := runLoop invoke (attempt + 1) fuel
        ⟨rest.result, rest.attempts, initialDelay * 2 ^ (attempt - 1) :: rest.delays⟩
      else ⟨.terminalError msg, attempt, []⟩

/-- Lines 62-104: the retry loop started at attempt 1 with `maxRetries`
iterations available. -/
def callGeminiImageApi (invoke : Nat → Except Str GenerateContentResponse) :
    RunTrace :=
  runLoop invoke 1 maxRetries

/-- Fixed prompt text preceding the place name (line 21). -/
def genPre : Str :=
  "A breathtaking, high-quality traditional watercolor painting of ".toList

/-- Fixed prompt text following the place name (lines 21-25). -/
def genSuf : Str :=
  (". \n    The style should feature artistic brushstrokes, gentle color bleeds, and visible paper texture. \n    Focus on capturing the iconic essence and atmosphere of the location. \n    Add a subtle, elegant artist signature that says \"Gemini\" in the bottom right corner.\n    Ensure the composition is balanced and the colors are vibrant yet natural.").toList

/-- Prompt built by `generateWatercolourPainting` (lines 21-25). -/
def generatePrompt (placeName : Str) : Str := genPre ++ placeName ++ genSuf

/-- Fixed edit prompt text before the first place occurrence (line 41). -/
def editPre : Str := "Modify this watercolor painting of ".toList

/-- Fixed edit prompt text between the place and the instruction (lines 41-42). -/
def editMid1 : Str := (". \n    Your instruction is: \"").toList

/-- Fixed edit prompt text between the instruction and the second place
occurrence (lines 42-44). -/
def editMid2 : Str :=
  ("\". \n    Maintain the existing artistic watercolor style, brushstrokes, and paper texture. \n    Keep the core composition of ").toList

/-- Fixed edit prompt text after the second place occurrence (lines 44-46). -/
def editSuf : Str :=
  (" but apply the changes requested.\n    Ensure the result remains a beautiful, cohesive watercolor masterpiece.\n    Ensure the signature \"Gemini\" remains in the bottom right corner.").toList

/-- Prompt built by `editWatercolourPainting` (lines 41-46). -/
def editPromptText (editInstr originalPlace : Str) : Str :=
  editPre ++ originalPlace ++ editMid1 ++ editInstr ++ editMid2 ++
    originalPlace ++ editSuf

/-- Inline data of a request part; either field may be `undefined` (line 50-53
passes possibly-undefined extraction results through unchanged). -/
structure RequestInlineData where
  data : Option Str
  mimeType : Option Str
deriving DecidableEq

/-- One part of the content list handed to the API. -/
inductive RequestPart where
  | text (t : Str)
  | inlineData (d : RequestInlineData)
deriving DecidableEq

/-- Request built by `generateWatercolourPainting` (line 27). -/
def generateWatercolourPainting (placeName : Str) : List RequestPart :=
  [.text (generatePrompt placeName)]

/-- Payload extraction of line 38: `base64ImageDataUrl.split(',')[1]`, which is
`undefined` when the URL holds no comma. -/
def editBase64Data (base64ImageDataUrl : Str) : Option Str :=
  (splitOnChar ',' base64ImageDataUrl).get? 1

/-- Media type extraction of line 39:
`base64ImageDataUrl.split(';')[0].split(':')[1]`; the outer `.get? 0` models
the indexing whose `undefined` would make the subsequent `.split` throw. -/
def editMimeType (base64ImageDataUrl : Str) : Option Str :=
  ((splitOnChar ';' base64ImageDataUrl).get? 0).bind fun firstSeg =>
    (splitOnChar ':' firstSeg).get? 1

/-- Request built by `editWatercolourPainting` (lines 36-56): the extracted
inline data followed by the edit prompt. -/
def editWatercolourPainting (base64ImageDataUrl editInstr originalPlace : Str) :
    List RequestPart :=
  [.inlineData ⟨editBase64Data base64ImageDataUrl, editMimeType base64ImageDataUrl⟩,
    .text (editPromptText editInstr originalPlace)]

/-- First inline image data among a list of parts, scanning in order: the
specification's "first content part that contains inline image data". -/
def firstInlineOfParts : List ResponsePart → Option InlineData
  | [] => none
  | p :: ps =>
    match p.inlineData with
    | some d => some d
    | none => firstInlineOfParts ps

/-- Specification reading of the extraction target: the first candidate's
first inline-image part, absent when the response has no first candidate,
content or parts. -/
def specFirstInline (r : GenerateContentResponse) : Option InlineData :=
  match r.candidates with
  | some (c :: _) =>
    match c.content with
    | some ct =>
      match ct.parts with
      | some ps => firstInlineOfParts ps
      | none => none
    | none => none
  | _ => none

/-- Whether some part of the candidate carries inline image data. -/
def candidateHasInline (c : Candidate) : Bool :=
  match c.content with
  | some ct =>
    match ct.parts with
    | some ps => ps.any fun p => p.inlineData.isSome
    | none => false
  | none => false

/-- Whether some candidate of the response carries inline image data: the
quantification over all candidates used by the specification's "no candidate
contains image data" wording. -/
def responseAnyCandidateHasInline (r : GenerateContentResponse) : Bool :=
  match r.candidates with
  | some cs => cs.any candidateHasInline
  | none => false

/-- State of the App component relevant to generate/edit threading: the
place input field, the current painting (`none` models the empty string
used before any generation), and a specification ghost recording the place
description the current painting was generated from. -/
structure AppState where
  place : Str
  painting : Option Str
  genPlace : Option Str
deriving DecidableEq

/-- Initial App state: empty place field, no painting. -/
def appInit : AppState := ⟨[], none, none⟩

/-- Events driving the App model: the user editing the place field
(App.tsx line 115), a generation completing successfully with an image, and
an edit completing successfully with an image. -/
inductive AppEvent where
  | setPlace (s : Str)
  | generateOk (img : Str)
  | editOk (instr img : Str)
deriving DecidableEq

/-- Arguments handed to `editWatercolourPainting` by `handleEdit` (App.tsx
line 67), paired with the ghost generation place of the image being
edited. -/
structure EditCall where
  base : Str
  instr : Str
  placeArg : Str
  ghostGenPlace : Option Str
deriving DecidableEq

/-- One step of the App model, returning the successor state and the edit
call issued during the step, if any.  `generateOk` follows `handleGenerate`
(App.tsx lines 35-57): it is guarded by `place.trim()` being non-empty and
generates from the trimmed place.  `editOk` follows `handleEdit` (lines
59-75): it is guarded by a non-blank instruction and an existing painting,
and passes the current, untrimmed `place` state. -/
def appStep (st : AppState) : AppEvent → AppState × Option EditCall
  | .setPlace s => ({ st with place := s }, none)
  | .generateOk img =>
    if trim st.place ≠ [] then
      ({ st with painting := some img, genPlace := some (trim st.place) }, none)
    else (st, none)
  | .editOk instr img =>
    match st.painting with
    | some base =>
      if trim instr ≠ [] then
        ({ st with painting := some img }, some ⟨base, instr, st.place, st.genPlace⟩)
      else (st, none)
    | none => (st, none)

/-- Runs a list of events from a state, collecting every edit call issued. -/
def appRun (st : AppState) : List AppEvent → AppState × List EditCall
  | [] => (st, [])
  | e :: es =>
    let step := appStep st e
    let rest := appRun step.1 es
    (rest.1, step.2.toList ++ rest.2)

/-- Recognizes the edit events of the App model. -/
def isEditEvent : AppEvent → Bool
  | .editOk _ _ => true
  | _ => false

/-- Sample inline image data as returned by the model. -/
def inlinePng : InlineData := ⟨"image/png".toList, "QUJD".toList⟩

/-- Sample candidate whose single part carries inline image data. -/
def candWithImage : Candidate := ⟨some ⟨some [⟨none, some inlinePng⟩]⟩⟩

/-- Sample candidate whose single part carries only text. -/
def candTextOnly : Candidate := ⟨some ⟨some [⟨some ("no image".toList), none⟩]⟩⟩

/-- Sample response whose first candidate has no image but whose second
candidate does. -/
def responseTwoCandidates : GenerateContentResponse :=
  ⟨some [candTextOnly, candWithImage]⟩

/-- Sample response with a single image-bearing candidate. -/
def responseOneCandidate : GenerateContentResponse := ⟨some [candWithImage]⟩

/-- Simulated invoker that fails with a 429 signature on attempts 1 and 2 and
succeeds on attempt 3. -/
def invokerThirdTimeLucky : Nat → Except Str GenerateContentResponse :=
  fun attempt => if attempt = 3 then .ok responseOneCandidate else .error s429

/-- Characterization of `startsWith`: boolean prefix test as an existential. -/
theorem startsWith_iff (s pat : Str) :
    startsWith s pat = true ↔ ∃ r, s = pat ++ r := by
  induction pat generalizing s with
  | nil => simp [startsWith]
  | cons p ps ih =>
    cases s with
    | nil =>
      simp only [startsWith, List.cons_append]
      constructor
      · intro h; cases h
      · rintro ⟨r, h⟩; cases h
    | cons c cs =>
      simp only [startsWith, Bool.and_eq_true, beq_iff_eq, ih, List.cons_append]
      constructor
      · rintro ⟨rfl, r, rfl⟩; exact ⟨r, rfl⟩
      · rintro ⟨r, h⟩
        injection h with h1 h2
        exact ⟨h1, r, h2⟩

/-- Characterization of `includes`: boolean substring test as an
existential decomposition. -/
theorem includes_iff (s pat : Str) :
    includes s pat = true ↔ ∃ l r, s = l ++ pat ++ r := by
  induction s with
  | nil =>
    simp only [includes, startsWith_iff]
    constructor
    · rintro ⟨r, h⟩; exact ⟨[], r, h⟩
    · rintro ⟨l, r, h⟩
      rcases List.append_eq_nil.mp (Eq.symm h) with ⟨h1, h2⟩
      rcases List.append_eq_nil.mp h1 with ⟨h3, h4⟩
      exact ⟨r, by simp [h4, h2]⟩
  | cons c cs ih =>
    simp only [includes, Bool.or_eq_true, startsWith_iff, ih]
    constructor
    · rintro (⟨r, h⟩ | ⟨l, r, h⟩)
      · exact ⟨[], r, by simp [h]⟩
      · exact ⟨c :: l, r, by simp [h]⟩
    · rintro ⟨l, r, h⟩
      cases l with
      | nil => exact Or.inl ⟨r, by simpa using h⟩
      | cons x xs =>
        injection h with h1 h2
        exact Or.inr ⟨xs, r, h2⟩

/-- Unfolding of the retry loop when the current attempt succeeds. -/
theorem runLoop_succ_ok {invoke : Nat → Except Str GenerateContentResponse}
    {attempt fuel : Nat} {img : Str}
    (h : attemptResult (invoke attempt) = .ok img) :
    runLoop invoke attempt (fuel + 1) = ⟨.image img, attempt, []⟩ := by
  simp only [runLoop, h]

/-- Unfolding of the retry loop when the current attempt fails with a
retryable message and retries remain. -/
theorem runLoop_succ_retry {invoke : Nat → Except Str GenerateContentResponse}
    {attempt fuel : Nat} {msg : Str}
    (h : attemptResult (invoke attempt) = .error msg)
    (hr : isRetryable msg = true) (hlt : attempt < maxRetries) :
    runLoop invoke attempt (fuel + 1) =
      ⟨(runLoop invoke (attempt + 1) fuel).result,
       (runLoop invoke (attempt + 1) fuel).attempts,
       initialDelay * 2 ^ (attempt - 1) :: (runLoop invoke (attempt + 1) fuel).delays⟩ := by
  simp only [runLoop, h, if_pos (And.intro hr hlt)]

/-- Unfolding of the retry loop when the current attempt fails and the
failure is fatal or the attempt budget is spent. -/
theorem runLoop_succ_fatal {invoke : Nat → Except Str GenerateContentResponse}
    {attempt fuel : Nat} {msg : Str}
    (h : attemptResult (invoke attempt) = .error msg)
    (hc : ¬(isRetryable msg = true ∧ attempt < maxRetries)) :
    runLoop invoke attempt (fuel + 1) = ⟨.terminalError msg, attempt, []⟩ := by
  simp only [runLoop, h, if_neg hc]

/-- The retry loop only reads the invoker at the attempts it can reach. -/
theorem runLoop_congr (invoke invoke2 : Nat → Except Str GenerateContentResponse) :
    ∀ fuel attempt, (∀ n, attempt ≤ n → n < attempt + fuel → invoke2 n = invoke n) →
      runLoop invoke2 attempt fuel = runLoop invoke attempt fuel := by
  intro fuel
  induction fuel with
  | zero => intro attempt _; rfl
  | succ k ih =>
    intro attempt h
    have h0 : invoke2 attempt = invoke attempt := h attempt (le_refl _) (by omega)
    cases hA : attemptResult (invoke attempt) with
    | ok img => simp only [runLoop, h0, hA]
    | error msg =>
      by_cases hc : isRetryable msg = true ∧ attempt < maxRetries
      · simp only [runLoop, h0, hA, if_pos hc,
          ih (attempt + 1) (fun n h1 h2 => h n (by omega) (by omega))]
      · simp only [runLoop, h0, hA, if_neg hc]

/-- While the loop invariant of the retry loop holds, the loop either
returns an image or raises a terminal error. -/
theorem runLoop_terminates (invoke : Nat → Except Str GenerateContentResponse) :
    ∀ fuel attempt, attempt ≤ maxRetries → maxRetries < attempt + fuel →
      (∃ img, (runLoop invoke attempt fuel).result = .image img) ∨
        (∃ m, (runLoop invoke attempt fuel).result = .terminalError m) := by
  intro fuel
  induction fuel with
  | zero => intro attempt h1 h2; omega
  | succ k ih =>
    intro attempt h1 h2
    cases hA : attemptResult (invoke attempt) with
    | ok img => exact Or.inl ⟨img, by simp [runLoop, hA]⟩
    | error msg =>
      by_cases hc : isRetryable msg = true ∧ attempt < maxRetries
      · have := ih (attempt + 1) (by omega) (by omega)
        simpa [runLoop, hA, hc] using this
      · exact Or.inr ⟨msg, by simp [runLoop, hA, hc]⟩

/-- Splitting a string that does not contain the separator yields the
string as single segment. -/
theorem splitOnChar_of_not_mem {sep : Char} {s : Str} (h : sep ∉ s) :
    splitOnChar sep s = [s] := by
  induction s with
  | nil => rfl
  | cons c cs ih =>
    have hc : ¬(c = sep) := fun he => h (he ▸ List.mem_cons_self c cs)
    have hcs : sep ∉ cs := fun hm => h (List.mem_cons_of_mem c hm)
    simp only [splitOnChar, if_neg hc, ih hcs]

/-- Splitting at the first separator occurrence: the separator-free part
before it becomes the first segment. -/
theorem splitOnChar_append {sep : Char} {a b : Str} (h : sep ∉ a) :
    splitOnChar sep (a ++ sep :: b) = a :: splitOnChar sep b := by
  induction a with
  | nil => simp [splitOnChar]
  | cons c cs ih =>
    have hc : ¬(c = sep) := fun he => h (he ▸ List.mem_cons_self c cs)
    have hcs : sep ∉ cs := fun hm => h (List.mem_cons_of_mem c hm)
    simp only [List.cons_append, splitOnChar, if_neg hc]
    rw [show cs.append (sep :: b) = cs ++ sep :: b from rfl, ih hcs]

/-- Splitting never yields the empty list of segments. -/
theorem splitOnChar_ne_nil (sep : Char) (s : Str) : splitOnChar sep s ≠ [] := by
  cases s with
  | nil => simp [splitOnChar]
  | cons c cs =>
    simp only [splitOnChar]
    by_cases hc : c = sep
    · simp [hc]
    · rw [if_neg hc]
      cases splitOnChar sep cs with
      | nil => simp
      | cons r rs => simp

/-- Finding the first part with inline data and projecting it agrees with a
direct scan for the first inline data. -/
theorem find_inline_eq (ps : List ResponsePart) :
    ((ps.find? fun p => p.inlineData.isSome).bind fun p => p.inlineData) =
      firstInlineOfParts ps := by
  induction ps with
  | nil => rfl
  | cons p ps ih =>
    cases hd : p.inlineData with
    | some d => simp [List.find?_cons, firstInlineOfParts, hd]
    | none => simp [List.find?_cons, firstInlineOfParts, hd, ih]

/-- The attempt body's handling of a response is determined by the first
candidate's first inline-image part. -/
theorem attemptResult_ok_eq (r : GenerateContentResponse) :
    attemptResult (.ok r) =
      match specFirstInline r with
      | some d => .ok (dataUrlOf d.mimeType d.data)
      | none => .error modelOutputEmptyMsg := by
  obtain ⟨cands⟩ := r
  cases cands with
  | none => rfl
  | some cs =>
    cases cs with
    | nil => rfl
    | cons c rest =>
      obtain ⟨ct?⟩ := c
      cases ct? with
      | none => rfl
      | some ct =>
        obtain ⟨ps?⟩ := ct
        cases ps? with
        | none => rfl
        | some ps =>
          simp only [attemptResult, findImagePart, specFirstInline,
            Option.some_bind, List.head?_cons]
          rw [← find_inline_eq ps]
          cases hf : ps.find? fun p => p.inlineData.isSome with
          | none => rfl
          | some p =>
            cases hp : p.inlineData with
            | none => rfl
            | some d => rfl

/-- Simulated invoker that always fails with a "500" signature. -/
def invokerAlways500 : Nat → Except Str GenerateContentResponse :=
  fun _ => Except.error s500

/-- Simulated invoker that always fails with a non-retryable signature. -/
def invoker401 : Nat → Except Str GenerateContentResponse :=
  fun _ => Except.error ("401 unauthorized".toList)

/-- C1: the retry policy classifies a failure as retryable iff its message
contains "429", "500" or "INTERNAL"; every other failure, the
ModelOutputEmpty error included, is fatal: whenever an attempt fails with a
non-retryable message the loop raises it immediately instead of retrying. -/
theorem failure_classification_iff (m : Str) :
    (isRetryable m = true ↔
      ((∃ l r, m = l ++ s429 ++ r) ∨ (∃ l r, m = l ++ s500 ++ r) ∨
        (∃ l r, m = l ++ sINTERNAL ++ r)))
    ∧ isRetryable modelOutputEmptyMsg = false
    ∧ (∀ invoke attempt fuel, attemptResult (invoke attempt) = Except.error m →
        isRetryable m = false →
        runLoop invoke attempt (fuel + 1) = ⟨.terminalError m, attempt, []⟩) := by
  refine ⟨?_, by decide, ?_⟩
  · simp only [isRetryable, Bool.or_eq_true, includes_iff]
    exact or_assoc
  · intro invoke attempt fuel h hf
    exact runLoop_succ_fatal h (fun hc => by simp [hf] at hc)

/-- Witness for C1 at the concrete fatal message "boom" on attempt 1. -/
theorem failure_classification_iff_witness :
    runLoop (fun _ => Except.error ("boom".toList)) 1 (2 + 1) =
      ⟨.terminalError ("boom".toList), 1, []⟩ :=
  (failure_classification_iff ("boom".toList)).2.2
    (fun _ => Except.error ("boom".toList)) 1 2 rfl (by decide)

/-- C2: when attempts 1 and 2 fail retryably and attempt 3 succeeds, the
orchestration returns the attempt-3 image after exactly 3 invocations,
suspending 1500 ms after attempt 1 and 3000 ms after attempt 2 and not
otherwise. -/
theorem retry_backoff_third_attempt_success
    (invoke : Nat → Except Str GenerateContentResponse) (m1 m2 img : Str)
    (h1 : attemptResult (invoke 1) = Except.error m1) (r1 : isRetryable m1 = true)
    (h2 : attemptResult (invoke 2) = Except.error m2) (r2 : isRetryable m2 = true)
    (h3 : attemptResult (invoke 3) = Except.ok img) :
    callGeminiImageApi invoke = ⟨.image img, 3, [1500, 3000]⟩ := by
  have e3 : runLoop invoke 3 1 = ⟨.image img, 3, []⟩ := runLoop_succ_ok h3
  have e2 : runLoop invoke 2 2 = ⟨.image img, 3, [3000]⟩ := by
    rw [runLoop_succ_retry h2 r2 (by decide), e3]
    norm_num [initialDelay]
  have e1 : runLoop invoke 1 3 = ⟨.image img, 3, [1500, 3000]⟩ := by
    rw [runLoop_succ_retry h1 r1 (by decide), e2]
    norm_num [initialDelay]
  exact e1

/-- Witness for C2 with a simulated invoker failing twice with "429" and
succeeding on the third attempt. -/
theorem retry_backoff_third_attempt_success_witness :
    callGeminiImageApi invokerThirdTimeLucky =
      ⟨.image (dataUrlOf ("image/png".toList) ("QUJD".toList)), 3, [1500, 3000]⟩ :=
  retry_backoff_third_attempt_success invokerThirdTimeLucky s429 s429
    (dataUrlOf ("image/png".toList) ("QUJD".toList)) rfl (by decide) rfl (by decide) rfl

/-- C3: when every attempt fails retryably the loop makes exactly 3
attempts with backoff after attempts 1 and 2, then raises a terminal error
carrying the last failure's message; and a run never consults the invoker
beyond attempt 3, so no fourth invocation can influence it. -/
theorem retry_exhausted_after_three
    (invoke : Nat → Except Str GenerateContentResponse) (m1 m2 m3 : Str)
    (h1 : attemptResult (invoke 1) = Except.error m1) (r1 : isRetryable m1 = true)
    (h2 : attemptResult (invoke 2) = Except.error m2) (r2 : isRetryable m2 = true)
    (h3 : attemptResult (invoke 3) = Except.error m3) (_r3 : isRetryable m3 = true) :
    callGeminiImageApi invoke = ⟨.terminalError m3, 3, [1500, 3000]⟩
    ∧ ∀ invoke2, (∀ n, n ≤ 3 → invoke2 n = invoke n) →
        callGeminiImageApi invoke2 = callGeminiImageApi invoke := by
  constructor
  · have e3 : runLoop invoke 3 1 = ⟨.terminalError m3, 3, []⟩ :=
      runLoop_succ_fatal h3 (fun hc => absurd hc.2 (by decide))
    have e2 : runLoop invoke 2 2 = ⟨.terminalError m3, 3, [3000]⟩ := by
      rw [runLoop_succ_retry h2 r2 (by decide), e3]
      norm_num [initialDelay]
    have e1 : runLoop invoke 1 3 = ⟨.terminalError m3, 3, [1500, 3000]⟩ := by
      rw [runLoop_succ_retry h1 r1 (by decide), e2]
      norm_num [initialDelay]
    exact e1
  · intro invoke2 hag
    have hm : maxRetries = 3 := rfl
    exact runLoop_congr invoke invoke2 maxRetries 1
      (fun n hn1 hn2 => hag n (by omega))

/-- Witness for C3 with an invoker that always fails with "500". -/
theorem retry_exhausted_after_three_witness :
    callGeminiImageApi invokerAlways500 = ⟨.terminalError s500, 3, [1500, 3000]⟩ :=
  (retry_exhausted_after_three invokerAlways500 s500 s500 s500 rfl (by decide)
    rfl (by decide) rfl (by decide)).1

/-- C4: a non-retryable failure on the first attempt terminates the run at
once: exactly one invocation, no backoff delay, and a terminal error
carrying that failure's message. -/
theorem fatal_failure_first_attempt
    (invoke : Nat → Except Str GenerateContentResponse) (m : Str)
    (h : attemptResult (invoke 1) = Except.error m) (hf : isRetryable m = false) :
    callGeminiImageApi invoke = ⟨.terminalError m, 1, []⟩ :=
  runLoop_succ_fatal h (fun hc => by simp [hf] at hc)

/-- Witness for C4 with an invoker failing with "401 unauthorized". -/
theorem fatal_failure_first_attempt_witness :
    callGeminiImageApi invoker401 =
      ⟨.terminalError ("401 unauthorized".toList), 1, []⟩ :=
  fatal_failure_first_attempt invoker401 ("401 unauthorized".toList) rfl (by decide)

/-- C6: the defensive "retries exhausted" raise placed after the loop is
unreachable: for every invoker behaviour the run returns an image or raises
a terminal error, never the loop-exit outcome. -/
theorem defensive_raise_unreachable
    (invoke : Nat → Except Str GenerateContentResponse) :
    (∃ img, (callGeminiImageApi invoke).result = CallResult.image img) ∨
      (∃ m, (callGeminiImageApi invoke).result = CallResult.terminalError m) :=
  runLoop_terminates invoke maxRetries 1 (by decide) (by decide)

/-- C5 (amended): on a successful attempt the result is the first
candidate's first inline-image part repackaged as a data URL, and the
attempt fails with the ModelOutputEmpty error iff the first candidate
carries no inline image data (zero candidates, absent content, absent
parts, or no inline part); later candidates are never consulted. -/
theorem extraction_first_candidate (r : GenerateContentResponse) :
    (attemptResult (Except.ok r) = Except.error modelOutputEmptyMsg ↔
      specFirstInline r = none)
    ∧ (∀ d, specFirstInline r = some d →
        attemptResult (Except.ok r) = Except.ok (dataUrlOf d.mimeType d.data)) := by
  have key := attemptResult_ok_eq r
  cases h : specFirstInline r with
  | none =>
    rw [h] at key
    exact ⟨⟨fun _ => rfl, fun _ => key⟩, fun d hd => by cases hd⟩
  | some d0 =>
    rw [h] at key
    refine ⟨⟨fun he => ?_, fun hn => by cases hn⟩, fun d hd => ?_⟩
    · rw [key] at he
      cases he
    · injection hd with hdd
      subst hdd
      exact key

/-- C5 counterexample: a response whose first candidate has no image but
whose second candidate does still fails with the ModelOutputEmpty error, so
failing is not equivalent to no candidate of the response containing inline
image data. -/
theorem extraction_ignores_later_candidates :
    attemptResult (Except.ok responseTwoCandidates) =
      Except.error modelOutputEmptyMsg
    ∧ responseAnyCandidateHasInline responseTwoCandidates = true :=
  ⟨rfl, rfl⟩

/-- Witness for C5's amended success clause on a one-candidate response. -/
theorem extraction_first_candidate_witness :
    attemptResult (Except.ok responseOneCandidate) =
      Except.ok (dataUrlOf ("image/png".toList) ("QUJD".toList)) :=
  (extraction_first_candidate responseOneCandidate).2
    ⟨"image/png".toList, "QUJD".toList⟩ rfl

/-- C7 (amended): encoding media type and payload as a data URL and decoding
it with the edit operation's parsing returns the originals, provided the
media type contains no ';', ':' or ',' and the payload contains no ','. -/
theorem dataUrl_roundTrip (m p : Str)
    (hm1 : ';' ∉ m) (hm2 : ':' ∉ m) (hm3 : ',' ∉ m) (hp : ',' ∉ p) :
    editMimeType (dataUrlOf m p) = some m
    ∧ editBase64Data (dataUrlOf m p) = some p := by
  constructor
  · have key : dataUrlOf m p = ("data:".toList ++ m) ++ ';' :: ("base64,".toList ++ p) := by
      simp [dataUrlOf, dataUrlHead, dataUrlMid, List.append_assoc]
    have hA : ';' ∉ "data:".toList ++ m := by
      intro hmem
      rcases List.mem_append.mp hmem with hmem | hmem
      · revert hmem; decide
      · exact hm1 hmem
    rw [editMimeType, key, splitOnChar_append hA]
    simp only [List.get?_cons_zero, Option.some_bind]
    rw [show ("data:".toList ++ m : Str) = "data".toList ++ ':' :: m from rfl,
      splitOnChar_append (by decide : ':' ∉ "data".toList),
      List.get?_cons_succ, splitOnChar_of_not_mem hm2]
    rfl
  · have key : dataUrlOf m p =
        (("data:".toList ++ m) ++ ";base64".toList) ++ ',' :: p := by
      simp [dataUrlOf, dataUrlHead, dataUrlMid, List.append_assoc]
    have hC : ',' ∉ ("data:".toList ++ m) ++ ";base64".toList := by
      intro hmem
      rcases List.mem_append.mp hmem with hmem | hmem
      · rcases List.mem_append.mp hmem with hmem | hmem
        · revert hmem; decide
        · exact hm3 hmem
      · revert hmem; decide
    rw [editBase64Data, key, splitOnChar_append hC,
      List.get?_cons_succ, splitOnChar_of_not_mem hp]
    rfl

/-- C7 counterexample: decoding does not return the original media type or
payload when the media type contains ';', ':' or ',' or the payload
contains ','. -/
theorem dataUrl_roundTrip_cex :
    editMimeType (dataUrlOf ("image;png".toList) ("AAAA".toList)) ≠
      some ("image;png".toList)
    ∧ editMimeType (dataUrlOf ("image:png".toList) ("AAAA".toList)) ≠
      some ("image:png".toList)
    ∧ editBase64Data (dataUrlOf ("image,png".toList) ("AAAA".toList)) ≠
      some ("AAAA".toList)
    ∧ editBase64Data (dataUrlOf ("image/png".toList) ("AA,AA".toList)) ≠
      some ("AA,AA".toList) := by
  decide

/-- Witness for C7 at a realistic media type and payload. -/
theorem dataUrl_roundTrip_witness :
    editMimeType (dataUrlOf ("image/png".toList) ("QUJDRA==".toList)) =
      some ("image/png".toList)
    ∧ editBase64Data (dataUrlOf ("image/png".toList) ("QUJDRA==".toList)) =
      some ("QUJDRA==".toList) :=
  dataUrl_roundTrip ("image/png".toList) ("QUJDRA==".toList)
    (by decide) (by decide) (by decide) (by decide)

set_option maxRecDepth 40000

/-- Stylistic request: visible brushstrokes (line 22). -/
def styleBrush : Str := "artistic brushstrokes".toList

/-- Stylistic request: color bleed (line 22). -/
def styleBleed : Str := "gentle color bleeds".toList

/-- Stylistic request: paper texture (line 22). -/
def styleTexture : Str := "visible paper texture".toList

/-- Stylistic request: embedded signature mark (line 24). -/
def styleSignature : Str := "artist signature".toList

/-- Stylistic request: balanced, natural-but-vibrant colors (line 25). -/
def styleBalance : Str := "vibrant yet natural".toList

/-- C8: the Generate prompt embeds the place description verbatim and its
fixed template text carries each fixed stylistic request exactly once, and
the Edit prompt embeds the edit instruction and the place description
verbatim. -/
theorem prompts_embed_inputs (place instr : Str) (_hp : place ≠ []) :
    generatePrompt place = genPre ++ place ++ genSuf
    ∧ includes (generatePrompt place) place = true
    ∧ countOcc (genPre ++ genSuf) styleBrush = 1
    ∧ countOcc (genPre ++ genSuf) styleBleed = 1
    ∧ countOcc (genPre ++ genSuf) styleTexture = 1
    ∧ countOcc (genPre ++ genSuf) styleSignature = 1
    ∧ countOcc (genPre ++ genSuf) styleBalance = 1
    ∧ includes (editPromptText instr place) instr = true
    ∧ includes (editPromptText instr place) place = true := by
  refine ⟨rfl, ?_, by decide, by decide, by decide, by decide, by decide, ?_, ?_⟩
  · exact (includes_iff _ _).mpr ⟨genPre, genSuf, rfl⟩
  · exact (includes_iff _ _).mpr ⟨editPre ++ place ++ editMid1,
      editMid2 ++ place ++ editSuf, by simp [editPromptText, List.append_assoc]⟩
  · exact (includes_iff _ _).mpr ⟨editPre,
      editMid1 ++ instr ++ editMid2 ++ place ++ editSuf,
      by simp [editPromptText, List.append_assoc]⟩

/-- Witness for C8 at a concrete place and instruction. -/
theorem prompts_embed_inputs_witness :
    includes (generatePrompt ("Kyoto".toList)) ("Kyoto".toList) = true :=
  (prompts_embed_inputs ("Kyoto".toList) ("add snow".toList) (by decide)).2.1

/-- C10: the edit operation's data-URL parsing is total — the segment
indexed before the second split always exists, so no step of the parsing can
throw — and for a base image containing no comma the extracted payload is
absent while the request is still issued, carrying the absent payload. -/
theorem edit_no_input_validation (url instr place : Str) (h : ',' ∉ url) :
    ((splitOnChar ';' url).get? 0).isSome = true
    ∧ editBase64Data url = none
    ∧ editWatercolourPainting url instr place =
        [RequestPart.inlineData ⟨none, editMimeType url⟩,
         RequestPart.text (editPromptText instr place)] := by
  have h2 : editBase64Data url = none := by
    rw [editBase64Data, splitOnChar_of_not_mem h]
    rfl
  refine ⟨?_, h2, ?_⟩
  · cases hs : splitOnChar ';' url with
    | nil => exact absurd hs (splitOnChar_ne_nil _ _)
    | cons a l => simp
  · rw [editWatercolourPainting, h2]

/-- Witness for C10 on a base image string without a comma. -/
theorem edit_no_input_validation_witness :
    editBase64Data ("nocomma".toList) = none
    ∧ editWatercolourPainting ("nocomma".toList) ("fix".toList) ("Kyoto".toList) =
        [RequestPart.inlineData ⟨none, editMimeType ("nocomma".toList)⟩,
         RequestPart.text (editPromptText ("fix".toList) ("Kyoto".toList))] :=
  ⟨(edit_no_input_validation ("nocomma".toList) ("fix".toList) ("Kyoto".toList)
      (by decide)).2.1,
   (edit_no_input_validation ("nocomma".toList) ("fix".toList) ("Kyoto".toList)
      (by decide)).2.2⟩

/-- C9 (amended): an edit request carries the place field's current value.
When the field holds exactly the description the current image was generated
from — no field edits since a generation whose input was already trimmed —
every subsequent chain of successful edits issues requests carrying exactly
that description, and the invariant persists across the chain. -/
theorem edit_place_threading : ∀ (events : List AppEvent) (st : AppState),
    st.genPlace = some st.place →
    (∀ e ∈ events, isEditEvent e = true) →
    (∀ c ∈ (appRun st events).2,
      c.placeArg = st.place ∧ c.ghostGenPlace = some st.place)
    ∧ (appRun st events).1.place = st.place
    ∧ (appRun st events).1.genPlace = some st.place := by
  intro events
  induction events with
  | nil =>
    intro st hst _
    exact ⟨by simp [appRun], rfl, hst⟩
  | cons e es ih =>
    intro st hst hev
    have he : isEditEvent e = true := hev e (List.mem_cons_self e es)
    have hes : ∀ e2 ∈ es, isEditEvent e2 = true :=
      fun e2 h2 => hev e2 (List.mem_cons_of_mem e h2)
    cases e with
    | setPlace s => cases he
    | generateOk img => cases he
    | editOk instr img =>
      cases hpnt : st.painting with
      | none =>
        have hrec := ih st hst hes
        simpa [appRun, appStep, hpnt] using hrec
      | some base =>
        by_cases hi : trim instr ≠ []
        · have hrec := ih { st with painting := some img } hst hes
          simp only [appRun, appStep, hpnt, if_pos hi, Option.toList_some,
            List.singleton_append]
          refine ⟨?_, hrec.2.1, hrec.2.2⟩
          intro c hc
          rcases List.mem_cons.mp hc with hc | hc
          · subst hc
            exact ⟨rfl, hst⟩
          · exact hrec.1 c hc
        · have hrec := ih st hst hes
          simpa [appRun, appStep, hpnt, if_neg hi] using hrec

/-- C9 counterexample: after generating from "Paris" and then retyping the
place field to "London", the next edit request carries "London" although the
image being edited was generated from "Paris". -/
theorem edit_place_not_carried_forward :
    (appRun appInit
        [AppEvent.setPlace ("Paris".toList), AppEvent.generateOk ("img1".toList),
         AppEvent.setPlace ("London".toList),
         AppEvent.editOk ("add a boat".toList) ("img2".toList)]).2 =
      [⟨"img1".toList, "add a boat".toList, "London".toList, some ("Paris".toList)⟩]
    ∧ ("London".toList : Str) ≠ "Paris".toList := by
  exact ⟨by decide, by decide⟩

/-- Witness for C9's amended invariant: the first edit call of a two-edit
refinement chain carries the generation place. -/
theorem edit_place_threading_witness :
    EditCall.placeArg
        ⟨"img1".toList, "add a boat".toList, "Paris".toList, some ("Paris".toList)⟩ =
      "Paris".toList
    ∧ EditCall.ghostGenPlace
        ⟨"img1".toList, "add a boat".toList, "Paris".toList, some ("Paris".toList)⟩ =
      some ("Paris".toList) :=
  (edit_place_threading
    [AppEvent.editOk ("add a boat".toList) ("img2".toList),
     AppEvent.editOk ("make it winter".toList) ("img3".toList)]
    ⟨"Paris".toList, some ("img1".toList), some ("Paris".toList)⟩
    rfl (by decide)).1
    ⟨"img1".toList, "add a boat".toList, "Paris".toList, some ("Paris".toList)⟩
    (by decide)
